import Mathlib

/-!
Shallow embedding of the trade ledger core of `src/app.py` (a Streamlit
revenue-calendar app).  Python floats are modelled as exact rationals (ℚ):
every arithmetic step of the embedded code is the real-number computation the
source expresses.  Trade entries are Python dicts with the six fixed keys
`date, symbol, buy, sell, quantity, profit`; they are modelled as a structure.
The Streamlit session state relevant to the ledger (`simple_trades` and
`undo_stack`) is modelled as an explicit state value.  JSON
serialization/deserialization used by the undo stack round-trips these values
exactly, so a snapshot is modelled as a copy of the ledger list.
-/

/-- A trade entry: the dict appended by the save handler (src/app.py:1112-1119),
with keys `date, symbol, buy, sell, quantity, profit`. -/
structure Entry where
  date : String
  symbol : String
  buy : ℚ
  sell : ℚ
  quantity : ℚ
  profit : ℚ
deriving Repr, DecidableEq

/-- `_net_after_tax` (src/app.py:101-107): tax applies only to positive
amounts; losses pass through unchanged.  (The `float(amount)` conversion
cannot fail on the numeric values the app passes, so the `except` branch
returning 0.0 is dead in this model.) -/
def net_after_tax (amount rate : ℚ) : ℚ :=
  if amount > 0 then amount - rate * amount else amount

/-- The per-entry tax adjustment applied by the aggregation loops
(src/app.py:440-441 and 792-795): net-of-tax when `use_tax` is set. -/
def adjProfit (useTax : Bool) (rate : ℚ) (p : ℚ) : ℚ :=
  if useTax then net_after_tax p rate else p

/-- The ledger-relevant Streamlit session state: `simple_trades` (the ledger)
and `undo_stack` (a list of full-ledger snapshots; src/app.py:613). -/
structure AppState where
  simple_trades : List Entry
  undo_stack : List (List Entry)
deriving Repr, DecidableEq

/-- `_push_undo` (src/app.py:615-620) with the possibility that
`json.dumps` raises modelled by `dumpsOk`: the `except` branch is `pass`,
so on failure the state is left unchanged and the caller continues.  On the
values this app stores (strings and floats) `json.dumps` round-trips, so a
snapshot is the current ledger list itself. -/
def pushUndoF (dumpsOk : Bool) (s : AppState) : AppState :=
  if dumpsOk then { s with undo_stack := s.undo_stack ++ [s.simple_trades] } else s

/-- `_push_undo` on the (always-taken in practice) success path. -/
def pushUndo (s : AppState) : AppState := pushUndoF true s

/-- `_pop_undo` (src/app.py:622-631): returns `false` on an empty stack,
otherwise pops the last snapshot and replaces the whole ledger with it. -/
def popUndo (s : AppState) : Bool × AppState :=
  match s.undo_stack.getLast? with
  | none => (false, s)
  | some snap => (true, { simple_trades := snap, undo_stack := s.undo_stack.dropLast })

/-- The entry built by the save form submit (src/app.py:1111-1119): `profit`
is the `gross` computed at src/app.py:1102 from the same session values that
are stored as `buy`, `sell`, `quantity` (the `or 0.0` guards are identity on
numbers, since `x or 0.0` is `x` for nonzero `x` and `0.0` for `0.0`). -/
def saveEntry (sel sym : String) (buy sell qty : ℚ) : Entry :=
  { date := sel, symbol := sym, buy := buy, sell := sell, quantity := qty,
    profit := (sell - buy) * qty }

/-- The save form submit handler (src/app.py:1111-1120): appends the new entry;
it does not touch the undo stack. -/
def saveOp (s : AppState) (sel sym : String) (buy sell qty : ℚ) : AppState :=
  { s with simple_trades := s.simple_trades ++ [saveEntry sel sym buy sell qty] }

/-- The value-based match used by the delete handler (src/app.py:1150-1156):
all six fields, with the date compared against the selected day `sel`. -/
def matchesDel (sel : String) (e a : Entry) : Bool :=
  a.date = sel && a.symbol = e.symbol && a.buy = e.buy && a.sell = e.sell &&
  a.quantity = e.quantity && a.profit = e.profit

/-- The delete loop body (src/app.py:1148-1159): remove the first entry
matching the clicked entry's field values, then stop (`break`). -/
def deleteFirst (sel : String) (e : Entry) : List Entry → List Entry
  | [] => []
  | a :: rest => if matchesDel sel e a then rest else a :: deleteFirst sel e rest

/-- The delete button handler (src/app.py:1146-1161), `dumpsOk` threading the
snapshot-capture outcome through `_push_undo`. -/
def deleteOpF (dumpsOk : Bool) (s : AppState) (sel : String) (e : Entry) : AppState :=
  let s := pushUndoF dumpsOk s
  { s with simple_trades := deleteFirst sel e s.simple_trades }

/-- Delete with the snapshot capture succeeding (the only case that occurs on
this app's data). -/
def deleteOp (s : AppState) (sel : String) (e : Entry) : AppState := deleteOpF true s sel e

/-- The duplicate button handler (src/app.py:1141-1145): push a snapshot, then
append a deep copy of the clicked entry. -/
def dupOpF (dumpsOk : Bool) (s : AppState) (e : Entry) : AppState :=
  let s := pushUndoF dumpsOk s
  { s with simple_trades := s.simple_trades ++ [e] }

/-- Duplicate with the snapshot capture succeeding. -/
def dupOp (s : AppState) (e : Entry) : AppState := dupOpF true s e

/-- The inline-edit update applied to one entry (src/app.py:1172-1178):
fields are overwritten and `profit` is recomputed from the new values. -/
def applyUpdate (e : Entry) (eb es eq : ℚ) (esym : String) : Entry :=
  { date := e.date, symbol := esym, buy := eb, sell := es, quantity := eq,
    profit := (es - eb) * eq }

/-- The inline edit targets `entries[idx]`, the `idx`-th entry of the ledger
whose date equals the selected day (src/app.py:1124, 1127): replace that
entry in place, leaving every other entry untouched. -/
def updateTrades (sel : String) (idx : ℕ) (eb es eq : ℚ) (esym : String) :
    List Entry → List Entry
  | [] => []
  | a :: rest =>
    if a.date = sel then
      if idx = 0 then applyUpdate a eb es eq esym :: rest
      else a :: updateTrades sel (idx - 1) eb es eq esym rest
    else a :: updateTrades sel idx eb es eq esym rest

/-- The inline edit update handler (src/app.py:1170-1180): push a snapshot,
then apply the patch. -/
def updateOpF (dumpsOk : Bool) (s : AppState) (sel : String) (idx : ℕ)
    (eb es eq : ℚ) (esym : String) : AppState :=
  let s := pushUndoF dumpsOk s
  { s with simple_trades := updateTrades sel idx eb es eq esym s.simple_trades }

/-- Update with the snapshot capture succeeding. -/
def updateOp (s : AppState) (sel : String) (idx : ℕ) (eb es eq : ℚ) (esym : String) :
    AppState := updateOpF true s sel idx eb es eq esym

/-- The CSV import handler (src/app.py:727-732): when the parsed row list is
nonempty, push a snapshot and extend the ledger with the rows; otherwise
nothing is mutated. -/
def importOpF (dumpsOk : Bool) (s : AppState) (rows : List Entry) : AppState :=
  if rows = [] then s
  else
    let s := pushUndoF dumpsOk s
    { s with simple_trades := s.simple_trades ++ rows }

/-- CSV import with the snapshot capture succeeding. -/
def importOp (s : AppState) (rows : List Entry) : AppState := importOpF true s rows

/-- The profit/buy/sell/quantity consistency invariant the spec states for
entry-producing operations. -/
def entryConsistent (e : Entry) : Prop := e.profit = (e.sell - e.buy) * e.quantity

instance (e : Entry) : Decidable (entryConsistent e) := by
  unfold entryConsistent; infer_instance

-- Helper lemmas on the undo stack.

theorem pushUndo_stack (s : AppState) :
    (pushUndo s).undo_stack = s.undo_stack ++ [s.simple_trades] := rfl

theorem pushUndo_trades (s : AppState) :
    (pushUndo s).simple_trades = s.simple_trades := rfl

theorem popUndo_append (tr : List Entry) (stk : List (List Entry)) (snap : List Entry) :
    popUndo ⟨tr, stk ++ [snap]⟩ = (true, ⟨snap, stk⟩) := by
  simp [popUndo]

theorem popUndo_empty (tr : List Entry) : popUndo ⟨tr, []⟩ = (false, ⟨tr, []⟩) := by
  simp [popUndo]

theorem updateTrades_mem (sel : String) (idx : ℕ) (eb es eq : ℚ) (esym : String) :
    ∀ (l : List Entry) (x : Entry), x ∈ updateTrades sel idx eb es eq esym l →
      x ∈ l ∨ entryConsistent x := by
  intro l
  induction l generalizing idx with
  | nil => intro x hx; simp [updateTrades] at hx
  | cons a rest ih =>
    intro x hx
    by_cases hd : a.date = sel
    · by_cases hi : idx = 0
      · simp [updateTrades, hd, hi] at hx
        rcases hx with hx | hx
        · right; subst hx; simp [entryConsistent, applyUpdate]
        · left; exact List.mem_cons_of_mem _ hx
      · simp [updateTrades, hd, hi] at hx
        rcases hx with hx | hx
        · left; simp [hx]
        · rcases ih (idx - 1) x hx with h | h
          · left; exact List.mem_cons_of_mem _ h
          · right; exact h
    · simp [updateTrades, hd] at hx
      rcases hx with hx | hx
      · left; simp [hx]
      · rcases ih idx x hx with h | h
        · left; exact List.mem_cons_of_mem _ h
        · right; exact h

/-- A concrete entry used by several witnesses: a trade on 2025-10-01 whose
profit 3 equals (2 - 1) * 3. -/
def sampleEntry : Entry := ⟨"2025-10-01", "Z", 1, 2, 3, 3⟩

/-- C1: every entry produced by the direct-entry save or by the inline edit
satisfies `profit = (sell - buy) * quantity` immediately after the operation:
save appends exactly one new entry with that profit, and after an update every
ledger entry is either untouched (already present before) or the freshly
recomputed one. -/
theorem claim_C1 (s : AppState) (sel sym : String) (b sl q : ℚ) (idx : ℕ)
    (eb es eq : ℚ) (esym : String) (x : Entry) :
    ((saveOp s sel sym b sl q).simple_trades
        = s.simple_trades ++ [saveEntry sel sym b sl q]
      ∧ entryConsistent (saveEntry sel sym b sl q))
    ∧ (x ∈ (updateOp s sel idx eb es eq esym).simple_trades →
        x ∈ s.simple_trades ∨ entryConsistent x) := by
  refine ⟨⟨rfl, by simp [entryConsistent, saveEntry]⟩, ?_⟩
  intro hx
  exact updateTrades_mem sel idx eb es eq esym s.simple_trades x
    (by simpa [updateOp, updateOpF, pushUndoF] using hx)

/-- Witness for C1 at a concrete ledger: saving appends the recomputed entry,
and the concrete updated entry is consistent. -/
theorem claim_C1_witness :
    ((saveOp ⟨[sampleEntry], []⟩ "2025-10-01" "X" 1 2 3).simple_trades
        = [sampleEntry] ++ [saveEntry "2025-10-01" "X" 1 2 3]
      ∧ entryConsistent (saveEntry "2025-10-01" "X" 1 2 3))
    ∧ (applyUpdate sampleEntry 3 5 2 "Y" ∈ [sampleEntry]
        ∨ entryConsistent (applyUpdate sampleEntry 3 5 2 "Y")) := by
  have h := claim_C1 ⟨[sampleEntry], []⟩ "2025-10-01" "X" 1 2 3 0 3 5 2 "Y"
    (applyUpdate sampleEntry 3 5 2 "Y")
  exact ⟨h.1, h.2 (by simp [updateOp, updateOpF, pushUndoF, updateTrades, sampleEntry])⟩

/-- C2: each snapshot-pushing destructive mutation (delete, duplicate, update,
CSV import with a nonempty row list) followed by `undo` yields exactly the
state before the mutation, and in particular a deleted entry is restored with
all original field values. -/
theorem claim_C2 (s : AppState) (sel : String) (e : Entry) (idx : ℕ)
    (eb es eq : ℚ) (esym : String) (rows : List Entry) :
    popUndo (deleteOp s sel e) = (true, s)
    ∧ popUndo (dupOp s e) = (true, s)
    ∧ popUndo (updateOp s sel idx eb es eq esym) = (true, s)
    ∧ (rows ≠ [] → popUndo (importOp s rows) = (true, s))
    ∧ (e ∈ s.simple_trades → e ∈ (popUndo (deleteOp s sel e)).2.simple_trades) := by
  have hdel : popUndo (deleteOp s sel e) = (true, s) := by
    simp [deleteOp, deleteOpF, pushUndoF, popUndo]
  refine ⟨hdel, ?_, ?_, ?_, ?_⟩
  · simp [dupOp, dupOpF, pushUndoF, popUndo]
  · simp [updateOp, updateOpF, pushUndoF, popUndo]
  · intro hr
    simp [importOp, importOpF, pushUndoF, popUndo, hr]
  · intro he
    rw [hdel]
    exact he

/-- Witness for C2 at a concrete state: import of one row then undo restores
the state, and the deleted concrete entry reappears after undo. -/
theorem claim_C2_witness :
    popUndo (deleteOp ⟨[sampleEntry], []⟩ "2025-10-01" sampleEntry)
      = (true, ⟨[sampleEntry], []⟩)
    ∧ popUndo (importOp ⟨[sampleEntry], []⟩ [sampleEntry])
      = (true, ⟨[sampleEntry], []⟩)
    ∧ sampleEntry
        ∈ (popUndo (deleteOp ⟨[sampleEntry], []⟩ "2025-10-01" sampleEntry)).2.simple_trades := by
  have h := claim_C2 ⟨[sampleEntry], []⟩ "2025-10-01" sampleEntry 0 0 0 0 "" [sampleEntry]
  exact ⟨h.1, h.2.2.2.1 (by decide), h.2.2.2.2 (by decide)⟩

/-- C3: `net_after_tax` subtracts `rate * amount` exactly when the amount is
positive and is the identity otherwise; in particular 100 at rate 0.2 nets 80,
-100 is untouched, and 0 maps to 0 for any rate in [0, 1]. -/
theorem claim_C3 (amount rate : ℚ) (_hr : 0 ≤ rate ∧ rate ≤ 1) :
    (0 < amount → net_after_tax amount rate = amount - rate * amount)
    ∧ (amount ≤ 0 → net_after_tax amount rate = amount)
    ∧ net_after_tax 100 (0.2 : ℚ) = 80
    ∧ net_after_tax (-100) (0.2 : ℚ) = -100
    ∧ net_after_tax 0 rate = 0 := by
  refine ⟨?_, ?_, by norm_num [net_after_tax], by norm_num [net_after_tax],
    by simp [net_after_tax]⟩
  · intro h; simp [net_after_tax, h]
  · intro h; simp [net_after_tax, not_lt.mpr h]

/-- Witness for C3 at amount 100, rate 0.2 (a valid rate). -/
theorem claim_C3_witness :
    net_after_tax 100 (0.2 : ℚ) = 100 - 0.2 * 100
    ∧ net_after_tax (-100) (0.2 : ℚ) = -100
    ∧ net_after_tax 0 (0.2 : ℚ) = 0 := by
  have h := claim_C3 100 0.2 ⟨by norm_num, by norm_num⟩
  exact ⟨h.1 (by norm_num), h.2.2.2.1, h.2.2.2.2⟩

/-- C8 fails on the code: when snapshot capture fails (`json.dumps` raising in
`_push_undo`, whose handler is `pass`), the deletion still proceeds — the
ledger changes even though no snapshot was pushed. -/
theorem claim_C8_counterexample :
    (deleteOpF false ⟨[sampleEntry], []⟩ "2025-10-01" sampleEntry).simple_trades = []
    ∧ (deleteOpF false ⟨[sampleEntry], []⟩ "2025-10-01" sampleEntry).simple_trades
        ≠ [sampleEntry]
    ∧ (deleteOpF false ⟨[sampleEntry], []⟩ "2025-10-01" sampleEntry).undo_stack = [] := by
  decide

/-- C8 amended: each destructive mutation attempts the snapshot push first and
then applies its change unconditionally — a snapshot-capture failure is
swallowed and the mutation proceeds anyway, so the atomic "no snapshot, no
mutation" discipline is not enforced. -/
theorem claim_C8_amended (ok : Bool) (s : AppState) (sel : String) (e : Entry)
    (idx : ℕ) (eb es eq : ℚ) (esym : String) (rows : List Entry) :
    ((deleteOpF ok s sel e).simple_trades = deleteFirst sel e s.simple_trades
      ∧ (deleteOpF ok s sel e).undo_stack = (pushUndoF ok s).undo_stack)
    ∧ ((dupOpF ok s e).simple_trades = s.simple_trades ++ [e]
      ∧ (dupOpF ok s e).undo_stack = (pushUndoF ok s).undo_stack)
    ∧ ((updateOpF ok s sel idx eb es eq esym).simple_trades
          = updateTrades sel idx eb es eq esym s.simple_trades
      ∧ (updateOpF ok s sel idx eb es eq esym).undo_stack = (pushUndoF ok s).undo_stack)
    ∧ (rows ≠ [] →
        (importOpF ok s rows).simple_trades = s.simple_trades ++ rows
        ∧ (importOpF ok s rows).undo_stack = (pushUndoF ok s).undo_stack)
    ∧ (pushUndoF ok s).undo_stack
        = (if ok then s.undo_stack ++ [s.simple_trades] else s.undo_stack) := by
  refine ⟨?_, ?_, ?_, ?_, ?_⟩
  · cases ok <;> simp [deleteOpF, pushUndoF]
  · cases ok <;> simp [dupOpF, pushUndoF]
  · cases ok <;> simp [updateOpF, pushUndoF]
  · intro hr; cases ok <;> simp [importOpF, pushUndoF, hr]
  · cases ok <;> simp [pushUndoF]

/-- Witness for C8's amended statement: a nonempty import with failing
snapshot capture still extends the ledger and pushes nothing. -/
theorem claim_C8_witness :
    (importOpF false ⟨[], []⟩ [sampleEntry]).simple_trades = [] ++ [sampleEntry]
    ∧ (importOpF false ⟨[], []⟩ [sampleEntry]).undo_stack
        = (pushUndoF false ⟨[], []⟩).undo_stack := by
  have h := claim_C8_amended false ⟨[], []⟩ "2025-10-01" sampleEntry 0 0 0 0 "" [sampleEntry]
  exact h.2.2.2.1 (by decide)

/-- C9 fails on the code: after `duplicate; save; undo`, the ledger is the
snapshot taken before the duplicate, which does not contain the just-saved
entry — undo does remove the just-added entry (by wholesale snapshot
restore). -/
theorem claim_C9_counterexample :
    (popUndo (saveOp (dupOp ⟨[sampleEntry], []⟩ sampleEntry) "2025-10-02" "B" 0 5 1)).2.simple_trades
      = [sampleEntry]
    ∧ saveEntry "2025-10-02" "B" 0 5 1 ∉ ([sampleEntry] : List Entry) := by
  decide

/-- C9 amended: save appends without pushing an undo snapshot, leaving the
undo stack unchanged; a single undo immediately after a save replaces the
whole ledger with the snapshot of the earlier mutation (so the just-added
entry disappears), or returns false and changes nothing on an empty stack. -/
theorem claim_C9_amended (s : AppState) (sel sym : String) (b sl q : ℚ) :
    (saveOp s sel sym b sl q).undo_stack = s.undo_stack
    ∧ (s.undo_stack = [] →
        popUndo (saveOp s sel sym b sl q) = (false, saveOp s sel sym b sl q))
    ∧ (∀ stk snap, s.undo_stack = stk ++ [snap] →
        popUndo (saveOp s sel sym b sl q) = (true, ⟨snap, stk⟩)) := by
  refine ⟨rfl, ?_, ?_⟩
  · intro h
    simp [saveOp, popUndo, h]
  · intro stk snap h
    simp [saveOp, popUndo, h]

/-- Witness for C9's amended statement at a concrete one-snapshot stack. -/
theorem claim_C9_witness :
    (saveOp ⟨[], [[sampleEntry]]⟩ "2025-10-02" "B" 0 5 1).undo_stack = [[sampleEntry]]
    ∧ popUndo (saveOp ⟨[], [[sampleEntry]]⟩ "2025-10-02" "B" 0 5 1)
        = (true, ⟨[sampleEntry], []⟩) := by
  have h := claim_C9_amended ⟨[], [[sampleEntry]]⟩ "2025-10-02" "B" 0 5 1
  exact ⟨h.1, h.2.2 [] [sampleEntry] rfl⟩

/-- A calendar date as produced by `datetime.fromisoformat` on the date-only
strings this app stores. -/
structure PyDate where
  year : ℕ
  month : ℕ
  day : ℕ
deriving Repr, DecidableEq

/-- Gregorian leap-year rule used by Python's `datetime`. -/
def isLeap (y : ℕ) : Bool := (y % 4 = 0 && !(y % 100 = 0)) || y % 400 = 0

/-- Days in a month, as validated by Python's `datetime` constructor. -/
def daysInMonth (y mo : ℕ) : ℕ :=
  if mo = 2 then (if isLeap y then 29 else 28)
  else if mo = 4 ∨ mo = 6 ∨ mo = 9 ∨ mo = 11 then 30 else 31

/-- The `datetime(year, month, day)` range validation (MINYEAR 1, MAXYEAR
9999): out-of-range fields raise ValueError, modelled as `none`. -/
def mkDate (y mo d : ℕ) : Option PyDate :=
  if 1 ≤ y ∧ y ≤ 9999 ∧ 1 ≤ mo ∧ mo ≤ 12 ∧ 1 ≤ d ∧ d ≤ daysInMonth y mo
  then some ⟨y, mo, d⟩ else none

/-- Numeric value of two decimal digit characters. -/
def digits2 (a b : Char) : ℕ := (a.toNat - 48) * 10 + (b.toNat - 48)

/-- Numeric value of four decimal digit characters. -/
def digits4 (a b c d : Char) : ℕ :=
  ((a.toNat - 48) * 10 + (b.toNat - 48)) * 100 + digits2 c d

/-- `datetime.fromisoformat` (src/app.py:788) restricted to the date-only
`YYYY-MM-DD` form — the only form this app ever stores (the save handler uses
`date.isoformat()` strings and CSV import truncates dates to their first 10
characters).  Any other string raises ValueError in the app, modelled as
`none`. -/
def fromisoformat (s : String) : Option PyDate :=
  match s.toList with
  | [y1, y2, y3, y4, h1, m1, m2, h2, d1, d2] =>
    if h1 = '-' ∧ h2 = '-' ∧ y1.isDigit ∧ y2.isDigit ∧ y3.isDigit ∧ y4.isDigit ∧
       m1.isDigit ∧ m2.isDigit ∧ d1.isDigit ∧ d2.isDigit then
      mkDate (digits4 y1 y2 y3 y4) (digits2 m1 m2) (digits2 d1 d2)
    else none
  | _ => none

theorem mkDate_month {y mo d : ℕ} {dt : PyDate} (h : mkDate y mo d = some dt) :
    1 ≤ dt.month ∧ dt.month ≤ 12 := by
  unfold mkDate at h
  split at h
  · rename_i hc
    cases h
    exact ⟨hc.2.2.1, hc.2.2.2.1⟩
  · simp at h

theorem fromisoformat_month {s : String} {dt : PyDate} (h : fromisoformat s = some dt) :
    1 ≤ dt.month ∧ dt.month ≤ 12 := by
  unfold fromisoformat at h
  split at h
  · split at h
    · exact mkDate_month h
    · simp at h
  · simp at h

/-- `totals[d] = totals.get(d, 0.0) + p` on the insertion-ordered dict
(src/app.py:444), modelled on an association list. -/
def updateTotals : List (String × ℚ) → String → ℚ → List (String × ℚ)
  | [], d, p => [(d, p)]
  | (k, v) :: rest, d, p =>
    if k = d then (k, v + p) :: rest else (k, v) :: updateTotals rest d p

/-- Dict lookup on the association list modelling `totals`. -/
def lookupTotal : List (String × ℚ) → String → Option ℚ
  | [], _ => none
  | (k, v) :: rest, d => if k = d then some v else lookupTotal rest d

/-- One iteration of the daily-totals loop (src/app.py:437-444): tax-adjust
the profit, skip entries whose date is falsy (empty), otherwise accumulate
under the entry's literal date string.  No date parsing happens here. -/
def dailyStep (useTax : Bool) (rate : ℚ) (totals : List (String × ℚ)) (e : Entry) :
    List (String × ℚ) :=
  let p := adjProfit useTax rate e.profit
  if e.date = "" then totals else updateTotals totals e.date p

/-- The daily totals dict built by the loop at src/app.py:436-444. -/
def dailyTotals (trades : List Entry) (useTax : Bool) (rate : ℚ) : List (String × ℚ) :=
  trades.foldl (dailyStep useTax rate) []

/-- One iteration of the month/year totals loop (src/app.py:785-795): skip
entries whose date does not parse; otherwise add the (optionally tax-adjusted)
profit to the year total when the year matches, and also to the month total
when the month matches. -/
def myStep (useTax : Bool) (rate : ℚ) (vy vm : ℕ) (acc : ℚ × ℚ) (ent : Entry) : ℚ × ℚ :=
  match fromisoformat ent.date with
  | none => acc
  | some dt =>
    if dt.year = vy then
      ((if dt.month = vm then acc.1 + adjProfit useTax rate ent.profit else acc.1),
        acc.2 + adjProfit useTax rate ent.profit)
    else acc

/-- The (month_total, year_total) pair computed at src/app.py:783-795. -/
def monthYearTotals (trades : List Entry) (useTax : Bool) (rate : ℚ) (vy vm : ℕ) :
    ℚ × ℚ :=
  trades.foldl (myStep useTax rate vy vm) (0, 0)

/-- Whether a stored date string denotes a day in month (y, m). -/
def inMonthB (ds : String) (y m : ℕ) : Bool :=
  match fromisoformat ds with
  | some dt => decide (dt.year = y) && decide (dt.month = m)
  | none => false

/-- Whether a stored date string denotes a day in year y. -/
def inYearB (ds : String) (y : ℕ) : Bool :=
  match fromisoformat ds with
  | some dt => decide (dt.year = y)
  | none => false

/-- Sum of the dict values whose key satisfies a predicate: "the sum of the
daily totals of the dates in that month". -/
def totalsFilteredSum (P : String → Bool) (totals : List (String × ℚ)) : ℚ :=
  ((totals.filter (fun kv => P kv.1)).map Prod.snd).sum

theorem lookupTotal_update (t : List (String × ℚ)) (k d : String) (p : ℚ) :
    lookupTotal (updateTotals t k p) d
      = if k = d then some ((lookupTotal t d).getD 0 + p) else lookupTotal t d := by
  induction t with
  | nil => by_cases h : k = d <;> simp [updateTotals, lookupTotal, h]
  | cons kv rest ih =>
    obtain ⟨k', v⟩ := kv
    by_cases h1 : k' = k
    · subst h1
      by_cases h2 : k' = d <;> simp [updateTotals, lookupTotal, h2]
    · by_cases h2 : k' = d
      · subst h2
        have hk : ¬ k = k' := fun hh => h1 hh.symm
        simp [updateTotals, lookupTotal, h1, hk]
      · simp [updateTotals, lookupTotal, h1, h2, ih]

theorem totalsFilteredSum_update (P : String → Bool) (t : List (String × ℚ))
    (k : String) (p : ℚ) :
    totalsFilteredSum P (updateTotals t k p)
      = totalsFilteredSum P t + (if P k then p else 0) := by
  induction t with
  | nil => by_cases h : P k <;> simp [updateTotals, totalsFilteredSum, h]
  | cons kv rest ih =>
    obtain ⟨k', v⟩ := kv
    by_cases h1 : k' = k
    · subst h1
      by_cases h2 : P k' <;> simp [updateTotals, totalsFilteredSum, h2] <;> ring
    · by_cases h2 : P k' <;>
        simp [updateTotals, totalsFilteredSum, h1, h2] <;>
        simp [totalsFilteredSum] at ih <;> rw [ih] <;> ring

theorem dailyFold_lookup (useTax : Bool) (rate : ℚ) (d : String) (hd : d ≠ "") :
    ∀ (trades : List Entry) (totals : List (String × ℚ)),
      (lookupTotal (trades.foldl (dailyStep useTax rate) totals) d).getD 0
        = (lookupTotal totals d).getD 0
          + ((trades.filter (fun e => e.date = d)).map
              (fun e => adjProfit useTax rate e.profit)).sum := by
  intro trades
  induction trades with
  | nil => intro totals; simp
  | cons e tr ih =>
    intro totals
    rw [List.foldl_cons, List.filter_cons]
    by_cases he : e.date = ""
    · have hne : e.date ≠ d := fun hh => hd (hh.symm.trans he)
      have hstep : dailyStep useTax rate totals e = totals := by simp [dailyStep, he]
      rw [hstep, ih]
      simp [hne]
    · have hstep : dailyStep useTax rate totals e
          = updateTotals totals e.date (adjProfit useTax rate e.profit) := by
        simp [dailyStep, he]
      rw [hstep, ih, lookupTotal_update]
      by_cases hdd : e.date = d
      · simp [hdd]
        try ring
      · simp [hdd]

theorem dailyFold_lookup_empty (useTax : Bool) (rate : ℚ) :
    ∀ (trades : List Entry) (totals : List (String × ℚ)),
      lookupTotal (trades.foldl (dailyStep useTax rate) totals) ""
        = lookupTotal totals "" := by
  intro trades
  induction trades with
  | nil => intro totals; simp
  | cons e tr ih =>
    intro totals
    by_cases he : e.date = ""
    · simp only [List.foldl_cons, dailyStep, he, if_true]
      exact ih totals
    · simp only [List.foldl_cons, dailyStep, if_neg he]
      rw [ih, lookupTotal_update]
      simp [he]

theorem dailyFold_none (useTax : Bool) (rate : ℚ) (d : String) (hd : d ≠ "") :
    ∀ (trades : List Entry) (totals : List (String × ℚ)),
      (lookupTotal (trades.foldl (dailyStep useTax rate) totals) d = none
        ↔ lookupTotal totals d = none ∧ ∀ e ∈ trades, e.date ≠ d) := by
  intro trades
  induction trades with
  | nil => intro totals; simp
  | cons e tr ih =>
    intro totals
    rw [List.foldl_cons]
    by_cases he : e.date = ""
    · have hne : e.date ≠ d := fun hh => hd (hh.symm.trans he)
      have hstep : dailyStep useTax rate totals e = totals := by simp [dailyStep, he]
      rw [hstep, ih]
      simp [hne]
    · have hstep : dailyStep useTax rate totals e
          = updateTotals totals e.date (adjProfit useTax rate e.profit) := by
        simp [dailyStep, he]
      rw [hstep, ih, lookupTotal_update]
      by_cases hdd : e.date = d <;> simp [hdd]

theorem totalsFilteredSum_fold (P : String → Bool) (useTax : Bool) (rate : ℚ) :
    ∀ (trades : List Entry) (totals : List (String × ℚ)),
      totalsFilteredSum P (trades.foldl (dailyStep useTax rate) totals)
        = totalsFilteredSum P totals
          + (trades.map (fun e =>
              if e.date = "" then 0
              else if P e.date then adjProfit useTax rate e.profit else 0)).sum := by
  intro trades
  induction trades with
  | nil => intro totals; simp
  | cons e tr ih =>
    intro totals
    by_cases he : e.date = ""
    · simp only [List.foldl_cons, dailyStep, he, if_true, List.map_cons, List.sum_cons]
      rw [ih]
      simp [he]
    · simp only [List.foldl_cons, dailyStep, if_neg he, List.map_cons, List.sum_cons]
      rw [ih, totalsFilteredSum_update]
      by_cases hp : P e.date <;> simp [hp, he] <;> ring

theorem myFold (useTax : Bool) (rate : ℚ) (vy vm : ℕ) :
    ∀ (trades : List Entry) (acc : ℚ × ℚ),
      trades.foldl (myStep useTax rate vy vm) acc
        = (acc.1 + (trades.map (fun e =>
              if inMonthB e.date vy vm then adjProfit useTax rate e.profit else 0)).sum,
           acc.2 + (trades.map (fun e =>
              if inYearB e.date vy then adjProfit useTax rate e.profit else 0)).sum) := by
  intro trades
  induction trades with
  | nil => intro acc; simp
  | cons e tr ih =>
    intro acc
    simp only [List.foldl_cons, List.map_cons, List.sum_cons]
    rw [ih]
    rcases h : fromisoformat e.date with _ | dt
    · simp [myStep, inMonthB, inYearB, h]
    · by_cases hy : dt.year = vy
      · by_cases hm : dt.month = vm
        · rw [Prod.ext_iff]
          constructor <;> simp [myStep, inMonthB, inYearB, h, hy, hm] <;> ring
        · rw [Prod.ext_iff]
          constructor <;> simp [myStep, inMonthB, inYearB, h, hy, hm] <;> ring
      · simp [myStep, inMonthB, inYearB, h, hy]

theorem inMonthB_empty (y m : ℕ) : inMonthB "" y m = false := rfl

theorem inYearB_empty (y : ℕ) : inYearB "" y = false := rfl

theorem sum_map_congr {α : Type} (l : List α) (f g : α → ℚ)
    (h : ∀ a ∈ l, f a = g a) : (l.map f).sum = (l.map g).sum := by
  induction l with
  | nil => simp
  | cons a tl ih =>
    simp only [List.map_cons, List.sum_cons]
    rw [h a (by simp), ih (fun b hb => h b (by simp [hb]))]

theorem entry_month_split (vy : ℕ) (ds : String) (a : ℚ) :
    (if inYearB ds vy then a else 0)
      = ∑ m in Finset.Icc 1 12, (if inMonthB ds vy m then a else 0) := by
  rcases h : fromisoformat ds with _ | dt
  · simp [inYearB, inMonthB, h]
  · simp only [inYearB, inMonthB, h]
    by_cases hy : dt.year = vy
    · have hmem : dt.month ∈ Finset.Icc 1 12 := Finset.mem_Icc.mpr (fromisoformat_month h)
      simp [hy, Finset.sum_ite_eq, hmem]
    · simp [hy]

theorem year_month_split (useTax : Bool) (rate : ℚ) (vy : ℕ) (trades : List Entry) :
    (trades.map (fun e => if inYearB e.date vy then adjProfit useTax rate e.profit else 0)).sum
      = ∑ m in Finset.Icc 1 12,
          (trades.map (fun e =>
            if inMonthB e.date vy m then adjProfit useTax rate e.profit else 0)).sum := by
  induction trades with
  | nil => simp
  | cons e tr ih =>
    simp only [List.map_cons, List.sum_cons]
    rw [ih, entry_month_split vy e.date (adjProfit useTax rate e.profit),
        ← Finset.sum_add_distrib]

/-- C4: additivity of the aggregation — the daily total of each (nonempty)
date string is the sum of the (optionally net-of-tax) profits of the entries
with exactly that date; the month total equals the sum of the daily totals of
the dates lying in that month; and the year total equals the sum of the month
totals over months 1..12. -/
theorem claim_C4 (trades : List Entry) (useTax : Bool) (rate : ℚ) (vy vm : ℕ)
    (d : String) (hd : d ≠ "") :
    (lookupTotal (dailyTotals trades useTax rate) d).getD 0
      = ((trades.filter (fun e => e.date = d)).map
          (fun e => adjProfit useTax rate e.profit)).sum
    ∧ (monthYearTotals trades useTax rate vy vm).1
      = totalsFilteredSum (fun k => inMonthB k vy vm) (dailyTotals trades useTax rate)
    ∧ (monthYearTotals trades useTax rate vy vm).2
      = ∑ m in Finset.Icc 1 12, (monthYearTotals trades useTax rate vy m).1 := by
  refine ⟨?_, ?_, ?_⟩
  · have h := dailyFold_lookup useTax rate d hd trades []
    simpa [dailyTotals, lookupTotal] using h
  · have h1 := myFold useTax rate vy vm trades (0, 0)
    have h2 := totalsFilteredSum_fold (fun k => inMonthB k vy vm) useTax rate trades []
    unfold monthYearTotals dailyTotals
    rw [h1, h2]
    simp only [totalsFilteredSum, List.filter_nil, List.map_nil, List.sum_nil, zero_add]
    exact sum_map_congr trades _ _ (fun e _ => by
      by_cases he : e.date = ""
      · simp [he, inMonthB_empty]
      · simp [he])
  · have hR : ∀ m, (trades.foldl (myStep useTax rate vy m) (0, 0)).1
        = (trades.map (fun e =>
            if inMonthB e.date vy m then adjProfit useTax rate e.profit else 0)).sum := by
      intro m
      rw [myFold]
      simp
    unfold monthYearTotals
    rw [myFold]
    simp only [hR]
    simpa using year_month_split useTax rate vy trades

/-- Witness for C4 at a one-entry ledger on 2025-10-01. -/
theorem claim_C4_witness :
    (lookupTotal (dailyTotals [sampleEntry] false 0) "2025-10-01").getD 0
      = ((([sampleEntry]).filter (fun e => e.date = "2025-10-01")).map
          (fun e => adjProfit false 0 e.profit)).sum
    ∧ (monthYearTotals [sampleEntry] false 0 2025 10).2
      = ∑ m in Finset.Icc 1 12, (monthYearTotals [sampleEntry] false 0 2025 m).1 := by
  have h := claim_C4 [sampleEntry] false 0 2025 10 "2025-10-01" (by decide)
  exact ⟨h.1, h.2.2⟩

/-- C7 fails on the code: the daily-totals loop never parses dates, so an
entry whose date string is not a calendar date is not skipped — it is
aggregated under its literal string key. -/
theorem claim_C7_counterexample :
    fromisoformat "garbage" = none
    ∧ lookupTotal (dailyTotals [⟨"garbage", "", 0, 0, 0, 5⟩] false 0) "garbage"
        = some 5 := by
  constructor
  · rfl
  · rfl

/-- C7 amended: the daily-totals computation is total (it cannot raise) and
maps each nonempty date string — parsable or not — to the sum of the
(optionally net-of-tax) profits of the entries carrying exactly that string;
only entries whose date is empty are skipped, and a date string is absent from
the mapping exactly when no entry carries it. -/
theorem claim_C7_amended (trades : List Entry) (useTax : Bool) (rate : ℚ)
    (d : String) (hd : d ≠ "") :
    lookupTotal (dailyTotals trades useTax rate) "" = none
    ∧ (lookupTotal (dailyTotals trades useTax rate) d).getD 0
        = ((trades.filter (fun e => e.date = d)).map
            (fun e => adjProfit useTax rate e.profit)).sum
    ∧ (lookupTotal (dailyTotals trades useTax rate) d = none
        ↔ ∀ e ∈ trades, e.date ≠ d) := by
  refine ⟨?_, ?_, ?_⟩
  · have h := dailyFold_lookup_empty useTax rate trades []
    simpa [dailyTotals] using h
  · have h := dailyFold_lookup useTax rate d hd trades []
    simpa [dailyTotals, lookupTotal] using h
  · have h := dailyFold_none useTax rate d hd trades []
    simpa [dailyTotals, lookupTotal] using h

/-- Witness for C7's amended statement on a one-entry ledger. -/
theorem claim_C7_witness :
    lookupTotal (dailyTotals [sampleEntry] false 0) "" = none
    ∧ (lookupTotal (dailyTotals [sampleEntry] false 0) "2025-10-01").getD 0
        = ((([sampleEntry]).filter (fun e => e.date = "2025-10-01")).map
            (fun e => adjProfit false 0 e.profit)).sum
    ∧ lookupTotal (dailyTotals [sampleEntry] false 0) "2025-10-01" ≠ none := by
  have h := claim_C7_amended [sampleEntry] false 0 "2025-10-01" (by decide)
  refine ⟨h.1, h.2.1, fun hnone => ?_⟩
  have := h.2.2.mp hnone sampleEntry (by simp)
  exact this rfl

/-- Python `str.strip()` on the whitespace the app's data contains (ASCII
whitespace; this model does not fold the rarer Unicode space characters):
drop whitespace from both ends. -/
def pyStrip (s : String) : String :=
  ⟨((s.toList.dropWhile Char.isWhitespace).reverse.dropWhile Char.isWhitespace).reverse⟩

/-- Python slicing `d[:10]`: the first 10 characters (code points). -/
def pyTake10 (s : String) : String := ⟨s.toList.take 10⟩

/-- `x.replace(",", "")`: drop every comma (thousands separators). -/
def stripCommas (s : String) : String := ⟨s.toList.filter (fun c => c ≠ ',')⟩

/-- Value of a decimal digit string (most significant first). -/
def digitsToNat (cs : List Char) : ℕ := cs.foldl (fun a c => a * 10 + (c.toNat - 48)) 0

/-- Python `float()` on the plain decimal literals this app's CSV data uses:
optional sign, then digits with an optional fractional part ("1", "1.5",
"1.", ".5").  Strings outside that form (including the exotic float() inputs
"inf", "nan", exponents, which do not occur in trade CSVs) raise ValueError,
modelled as `none`. -/
def pyFloat? (s : String) : Option ℚ :=
  let sc : Bool × List Char :=
    match s.toList with
    | '-' :: t => (true, t)
    | '+' :: t => (false, t)
    | t => (false, t)
  let neg := sc.1
  let cs := sc.2
  let signed (v : ℚ) : ℚ := if neg then -v else v
  let intPart := cs.takeWhile Char.isDigit
  let rest := cs.dropWhile Char.isDigit
  match rest with
  | [] => if intPart = [] then none else some (signed (digitsToNat intPart))
  | '.' :: frac =>
    let fracD := frac.takeWhile Char.isDigit
    if frac.dropWhile Char.isDigit ≠ [] then none
    else if intPart = [] ∧ fracD = [] then none
    else some (signed ((digitsToNat intPart : ℚ)
      + (digitsToNat fracD : ℚ) / (10 : ℚ) ^ fracD.length))
  | _ => none

/-- `_get(d, names, "")` (src/app.py:650-654): the first listed header name
whose cell is present and nonempty; "" otherwise.  A DictReader row is
modelled as an association list from header names to cell strings (an absent
column is an absent key). -/
def rowGet (r : List (String × String)) (names : List String) : String :=
  match names with
  | [] => ""
  | n :: rest =>
    match r.lookup n with
    | some v => if v = "" then rowGet r rest else v
    | none => rowGet r rest

/-- `_to_f` (src/app.py:663-666): None/empty → None, otherwise
`float(x.replace(",", ""))`; a non-numeric string makes `float` raise
ValueError, modelled as `.error` carrying the ValueError text. -/
def toF (x : String) : Except String (Option ℚ) :=
  if x = "" then .ok none
  else
    match pyFloat? (stripCommas x) with
    | some v => .ok (some v)
    | none => .error ("could not convert string to float: '" ++ stripCommas x ++ "'")

/-- One iteration of `_parse_import_csv`'s row loop (src/app.py:655-685):
read the aliased columns, parse the numeric cells in source order (the first
ValueError aborts just this row and becomes its error message, prefixed with
the 1-based row number), default the quantity to 0, compute the profit from
buy/sell/quantity only when the profit cell is missing and buy and sell are
both present, and reject rows whose (stripped) date is empty. -/
def parseImportRow (i : ℕ) (r : List (String × String)) : Except String Entry :=
  let d := pyStrip (rowGet r ["date", "日付"])
  let sym := pyStrip (rowGet r ["symbol", "銘柄", "コード"])
  match toF (rowGet r ["buy", "買値"]), toF (rowGet r ["sell", "売値"]),
        toF (rowGet r ["quantity", "qty", "株数"]), toF (rowGet r ["profit", "収益"]) with
  | .error m, _, _, _ => .error (toString i ++ "行目: " ++ m)
  | .ok _, .error m, _, _ => .error (toString i ++ "行目: " ++ m)
  | .ok _, .ok _, .error m, _ => .error (toString i ++ "行目: " ++ m)
  | .ok _, .ok _, .ok _, .error m => .error (toString i ++ "行目: " ++ m)
  | .ok buyV, .ok sellV, .ok qtyV0, .ok prfV0 =>
    let qtyV := qtyV0.getD 0
    let prfV : Option ℚ :=
      if prfV0 = none ∧ buyV ≠ none ∧ sellV ≠ none then
        some ((sellV.getD 0 - buyV.getD 0) * qtyV)
      else prfV0
    if d = "" then .error (toString i ++ "行目: dateが空です")
    else .ok
      { date := pyTake10 d, symbol := sym,
        buy := buyV.getD 0, sell := sellV.getD 0,
        quantity := qtyV, profit := prfV.getD 0 }

/-- `_parse_import_csv`'s row loop (src/app.py:655-686) over the decoded
DictReader rows: parsed rows accumulate in order, error messages accumulate
in order, `enumerate(reader, start=1)` numbers the rows from 1.  (The
byte-decoding fallback chain at src/app.py:639-648 is upstream of this loop
and outside the claims.) -/
def parseImportCsv (rowsIn : List (List (String × String))) :
    List Entry × List String :=
  (List.enumFrom 1 rowsIn).foldl
    (fun acc ir =>
      match parseImportRow ir.1 ir.2 with
      | .ok e => (acc.1 ++ [e], acc.2)
      | .error m => (acc.1, acc.2 ++ [m]))
    ([], [])

theorem importFold (l : List (ℕ × List (String × String))) :
    ∀ acc : List Entry × List String,
      l.foldl (fun acc ir =>
        match parseImportRow ir.1 ir.2 with
        | .ok e => (acc.1 ++ [e], acc.2)
        | .error m => (acc.1, acc.2 ++ [m])) acc
      = (acc.1 ++ l.filterMap (fun ir => (parseImportRow ir.1 ir.2).toOption),
         acc.2 ++ l.filterMap (fun ir =>
            match parseImportRow ir.1 ir.2 with
            | .error m => some m
            | .ok _ => none)) := by
  induction l with
  | nil => intro acc; simp
  | cons ir rest ih =>
    intro acc
    rw [List.foldl_cons]
    rcases h : parseImportRow ir.1 ir.2 with m | e
    · simp [h, ih, List.filterMap_cons, Except.toOption]
    · simp [h, ih, List.filterMap_cons, Except.toOption]

/-- The DictReader row of the CSV line `2025-10-01,7203.T,2400,2500,100,`
(empty profit cell) under the standard header. -/
def rowEmptyProfit : List (String × String) :=
  [("date", "2025-10-01"), ("symbol", "7203.T"), ("buy", "2400"),
   ("sell", "2500"), ("quantity", "100"), ("profit", "")]

/-- The CSV line `2025-10-01,7203.T,,2500,100,`: profit empty and buy empty. -/
def rowEmptyBuyProfit : List (String × String) :=
  [("date", "2025-10-01"), ("symbol", "7203.T"), ("buy", ""),
   ("sell", "2500"), ("quantity", "100"), ("profit", "")]

/-- A row whose profit cell (999) disagrees with (sell - buy) * quantity. -/
def rowOddProfit : List (String × String) :=
  [("date", "2025-10-01"), ("symbol", "7203.T"), ("buy", "2400"),
   ("sell", "2500"), ("quantity", "100"), ("profit", "999")]

theorem toF_2400 : toF "2400" = .ok (some 2400) := rfl

theorem toF_2500 : toF "2500" = .ok (some 2500) := rfl

theorem toF_100 : toF "100" = .ok (some 100) := rfl

theorem toF_comma : toF "1,000" = .ok (some 1000) := rfl

/-- C5 fails on the code as universally stated: on a row whose profit cell is
empty but whose buy cell is also empty, the import does not compute
`(sell - buy) * quantity` (that would be 250000 with the defaulted buy 0); it
silently stores profit 0. -/
theorem claim_C5_counterexample :
    parseImportCsv [rowEmptyBuyProfit]
      = ([⟨"2025-10-01", "7203.T", 0, 2500, 100, 0⟩], [])
    ∧ ¬ entryConsistent ⟨"2025-10-01", "7203.T", 0, 2500, 100, 0⟩ := by
  constructor
  · rfl
  · norm_num [entryConsistent]

/-- C5 amended: when the profit cell is absent or empty AND buy and sell both
parse, the imported entry's profit is recomputed as (sell - buy) * quantity
(when buy or sell is also missing, profit instead defaults to 0); each
unparsable row contributes exactly one error message carrying its 1-based row
index while every other row is still processed (the output pair is the
rowwise independent combination, so the import never aborts the file); and
the scenario row `2025-10-01,7203.T,2400,2500,100,` imports with profit
10000. -/
theorem claim_C5_amended (rows : List (List (String × String)))
    (i : ℕ) (r : List (String × String)) (bv sv : ℚ) (qo : Option ℚ)
    (hp : toF (rowGet r ["profit", "収益"]) = .ok none)
    (hb : toF (rowGet r ["buy", "買値"]) = .ok (some bv))
    (hs : toF (rowGet r ["sell", "売値"]) = .ok (some sv))
    (hq : toF (rowGet r ["quantity", "qty", "株数"]) = .ok qo)
    (hd : pyStrip (rowGet r ["date", "日付"]) ≠ "") :
    parseImportRow i r = .ok
      { date := pyTake10 (pyStrip (rowGet r ["date", "日付"])),
        symbol := pyStrip (rowGet r ["symbol", "銘柄", "コード"]),
        buy := bv, sell := sv, quantity := qo.getD 0,
        profit := (sv - bv) * qo.getD 0 }
    ∧ parseImportCsv rows
        = ((List.enumFrom 1 rows).filterMap
            (fun ir => (parseImportRow ir.1 ir.2).toOption),
           (List.enumFrom 1 rows).filterMap (fun ir =>
              match parseImportRow ir.1 ir.2 with
              | .error m => some m
              | .ok _ => none))
    ∧ parseImportCsv [rowEmptyProfit]
        = ([⟨"2025-10-01", "7203.T", 2400, 2500, 100, 10000⟩], []) := by
  refine ⟨?_, ?_, ?_⟩
  · unfold parseImportRow
    rw [hb, hs, hq, hp]
    simp [hd]
  · have h := importFold (List.enumFrom 1 rows) ([], [])
    simpa [parseImportCsv] using h
  · have h0 : parseImportCsv [rowEmptyProfit]
        = ([⟨"2025-10-01", "7203.T", 2400, 2500, 100, ((2500 : ℚ) - 2400) * 100⟩],
           []) := rfl
    rw [h0]
    norm_num

/-- Witness for C5's amended statement on the scenario row itself. -/
theorem claim_C5_witness :
    parseImportRow 1 rowEmptyProfit = .ok
      { date := pyTake10 (pyStrip (rowGet rowEmptyProfit ["date", "日付"])),
        symbol := pyStrip (rowGet rowEmptyProfit ["symbol", "銘柄", "コード"]),
        buy := 2400, sell := 2500, quantity := (some (100 : ℚ)).getD 0,
        profit := ((2500 : ℚ) - 2400) * (some (100 : ℚ)).getD 0 }
    ∧ parseImportCsv [rowEmptyProfit]
        = ([⟨"2025-10-01", "7203.T", 2400, 2500, 100, 10000⟩], []) := by
  have h := claim_C5_amended [rowEmptyProfit] 1 rowEmptyProfit 2400 2500 (some 100)
    (by rfl) toF_2400 toF_2500 toF_100 (by decide)
  exact ⟨h.1, h.2.2⟩

/-- C10: a present, nonempty profit cell is stored verbatim (after comma
stripping) without being recomputed from buy/sell/quantity — so an imported
entry's profit may differ from (sell - buy) * quantity, as the concrete row
with profit 999 shows. -/
theorem claim_C10 (i : ℕ) (r : List (String × String)) (p : ℚ) (bo so qo : Option ℚ)
    (hp : toF (rowGet r ["profit", "収益"]) = .ok (some p))
    (hb : toF (rowGet r ["buy", "買値"]) = .ok bo)
    (hs : toF (rowGet r ["sell", "売値"]) = .ok so)
    (hq : toF (rowGet r ["quantity", "qty", "株数"]) = .ok qo)
    (hd : pyStrip (rowGet r ["date", "日付"]) ≠ "") :
    parseImportRow i r = .ok
      { date := pyTake10 (pyStrip (rowGet r ["date", "日付"])),
        symbol := pyStrip (rowGet r ["symbol", "銘柄", "コード"]),
        buy := bo.getD 0, sell := so.getD 0, quantity := qo.getD 0, profit := p }
    ∧ toF "1,000" = .ok (some 1000)
    ∧ parseImportCsv [rowOddProfit]
        = ([⟨"2025-10-01", "7203.T", 2400, 2500, 100, 999⟩], [])
    ∧ ¬ entryConsistent ⟨"2025-10-01", "7203.T", 2400, 2500, 100, 999⟩ := by
  refine ⟨?_, toF_comma, by rfl, by norm_num [entryConsistent]⟩
  · unfold parseImportRow
    rw [hb, hs, hq, hp]
    simp [hd]

/-- Witness for C10 on the concrete row with profit cell 999. -/
theorem claim_C10_witness :
    parseImportRow 1 rowOddProfit = .ok
      { date := pyTake10 (pyStrip (rowGet rowOddProfit ["date", "日付"])),
        symbol := pyStrip (rowGet rowOddProfit ["symbol", "銘柄", "コード"]),
        buy := (some (2400 : ℚ)).getD 0, sell := (some (2500 : ℚ)).getD 0,
        quantity := (some (100 : ℚ)).getD 0, profit := 999 }
    ∧ ¬ entryConsistent ⟨"2025-10-01", "7203.T", 2400, 2500, 100, 999⟩ := by
  have h := claim_C10 1 rowOddProfit 999 (some 2400) (some 2500) (some 100)
    (by rfl) toF_2400 toF_2500 toF_100 (by decide)
  exact ⟨h.1, h.2.2.2⟩

/-- Python `str.lower()` on the character classes this app's symbol data
contains: ASCII capitals and full-width capitals (U+FF21..U+FF3A) are shifted
to their lowercase forms; every other character (kana, kanji, digits,
punctuation) is left unchanged, as `lower()` leaves them unchanged. -/
def pyLower (c : Char) : Char :=
  let n := c.toNat
  if 65 ≤ n ∧ n ≤ 90 then Char.ofNat (n + 32)
  else if 0xFF21 ≤ n ∧ n ≤ 0xFF3A then Char.ofNat (n + 32)
  else c

/-- `str.lower()` applied characterwise, as `_norm_ja` does. -/
def pyLowerStr (s : String) : String := ⟨s.toList.map pyLower⟩

/-- `_norm_ja` (src/app.py:877-888): katakana (U+30A1..U+30F6) folds to
hiragana by the fixed codepoint offset 0x60; everything else is lowercased. -/
def normJa (s : String) : String :=
  ⟨s.toList.map (fun ch =>
    let code := ch.toNat
    if 0x30A1 ≤ code ∧ code ≤ 0x30F6 then Char.ofNat (code - 0x60)
    else pyLower ch)⟩

/-- `_clean_ascii` (src/app.py:903-905): lowercase, then delete every
character outside [a-z0-9] (the regex replaces maximal runs by "", i.e.
filters the characters). -/
def cleanAscii (x : String) : String :=
  ⟨(pyLowerStr x).toList.filter (fun c =>
    ('a' ≤ c ∧ c ≤ 'z') ∨ ('0' ≤ c ∧ c ≤ '9'))⟩

/-- Python's substring test `needle in hay`. -/
def strIn (needle hay : String) : Bool :=
  hay.toList.tails.any (fun t => needle.toList.isPrefixOf t)

/-- Python string `<`: lexicographic comparison by code point. -/
def strLtB : List Char → List Char → Bool
  | [], [] => false
  | [], _ :: _ => true
  | _ :: _, [] => false
  | a :: as, b :: bs =>
    if a.toNat < b.toNat then true
    else if b.toNat < a.toNat then false
    else strLtB as bs

/-- Insert into a strictly ascending list, skipping duplicates. -/
def insertUniqueSorted (x : String) : List String → List String
  | [] => [x]
  | y :: rest =>
    if strLtB y.toList x.toList then y :: insertUniqueSorted x rest
    else if x = y then y :: rest
    else x :: y :: rest

/-- Python `sorted(set(l))`: the strictly ascending enumeration of the
distinct elements. -/
def sortedUnique (l : List String) : List String := l.foldr insertUniqueSorted []

/-- The in-source curated catalog `OFFLINE_SYMBOLS` (src/app.py:853-875). -/
def OFFLINE_SYMBOLS : List (String × String) :=
  [("7203.T", "トヨタ自動車"),
   ("6758.T", "ソニーグループ"),
   ("6861.T", "キーエンス"),
   ("7974.T", "任天堂"),
   ("8035.T", "東京エレクトロン"),
   ("9983.T", "ファーストリテイリング"),
   ("9984.T", "ソフトバンクグループ"),
   ("6501.T", "日立製作所"),
   ("6503.T", "三菱電機"),
   ("6981.T", "村田製作所"),
   ("6954.T", "ファナック"),
   ("7751.T", "キヤノン"),
   ("9432.T", "ＮＴＴ"),
   ("9433.T", "ＫＤＤＩ"),
   ("9434.T", "ソフトバンク"),
   ("8316.T", "三井住友フィナンシャルグループ"),
   ("8306.T", "三菱ＵＦＪフィナンシャル・グループ"),
   ("8411.T", "みずほフィナンシャルグループ"),
   ("8058.T", "三菱商事"),
   ("8031.T", "三井物産"),
   ("5706.T", "三井金属鉱山"),
   ("5713.T", "住友金属鉱山"),
   ("5711.T", "三菱マテリアル"),
   ("5714.T", "ＤＯＷＡホールディングス"),
   ("2768.T", "双日"),
   ("4901.T", "富士フイルムＨＤ"),
   ("4063.T", "信越化学工業"),
   ("4502.T", "武田薬品工業"),
   ("4503.T", "アステラス製薬"),
   ("4523.T", "エーザイ"),
   ("4568.T", "第一三共"),
   ("4519.T", "中外製薬"),
   ("5108.T", "ブリヂストン"),
   ("6752.T", "パナソニックＨＤ"),
   ("2914.T", "日本たばこ産業"),
   ("1605.T", "ＩＮＰＥＸ"),
   ("5020.T", "ＥＮＥＯＳホールディングス"),
   ("7201.T", "日産自動車"),
   ("7267.T", "ホンダ"),
   ("7269.T", "スズキ"),
   ("7270.T", "ＳＵＢＡＲＵ"),
   ("6902.T", "デンソー"),
   ("4062.T", "イビデン"),
   ("6594.T", "ニデック"),
   ("6762.T", "ＴＤＫ"),
   ("6988.T", "日東電工"),
   ("6324.T", "ハーモニックドライブ"),
   ("6367.T", "ダイキン工業"),
   ("6273.T", "ＳＭＣ"),
   ("7735.T", "ＳＣＲＥＥＮホールディングス"),
   ("7731.T", "ニコン"),
   ("7752.T", "リコー"),
   ("4661.T", "オリエンタルランド"),
   ("3382.T", "セブン＆アイ・ホールディングス"),
   ("8001.T", "伊藤忠商事"),
   ("8002.T", "丸紅"),
   ("8053.T", "住友商事"),
   ("8591.T", "オリックス"),
   ("5201.T", "ＡＧＣ"),
   ("3402.T", "東レ"),
   ("6098.T", "リクルートホールディングス"),
   ("9021.T", "ＪＲ西日本"),
   ("9022.T", "ＪＲ東海"),
   ("9201.T", "日本航空"),
   ("9202.T", "ＡＮＡ ＨＤ"),
   ("5401.T", "日本製鉄"),
   ("5411.T", "ＪＦＥホールディングス")]

/-- The manual transliteration alias table `romaji_alias` (src/app.py:912-940):
(ascii key, symbol, display name). -/
def romajiAlias : List (String × String × String) :=
  [("toyota", "7203.T", "トヨタ自動車"),
   ("sony", "6758.T", "ソニーグループ"),
   ("nintendo", "7974.T", "任天堂"),
   ("hitachi", "6501.T", "日立製作所"),
   ("mitsubishi", "6503.T", "三菱電機"),
   ("mitsubishi", "8058.T", "三菱商事"),
   ("mitsui", "8031.T", "三井物産"),
   ("sumitomo", "8316.T", "三井住友フィナンシャルグループ"),
   ("mizuho", "8411.T", "みずほフィナンシャルグループ"),
   ("keyence", "6861.T", "キーエンス"),
   ("murata", "6981.T", "村田製作所"),
   ("canon", "7751.T", "キヤノン"),
   ("panasonic", "6752.T", "パナソニックＨＤ"),
   ("softbank", "9434.T", "ソフトバンク"),
   ("sbg", "9984.T", "ソフトバンクグループ"),
   ("kddi", "9433.T", "ＫＤＤＩ"),
   ("nissan", "7201.T", "日産自動車"),
   ("honda", "7267.T", "ホンダ"),
   ("inpex", "1605.T", "ＩＮＰＥＸ"),
   ("eneos", "5020.T", "ＥＮＥＯＳホールディングス"),
   ("ana", "9202.T", "ANA HD"),
   ("jr east", "9020.T", "東日本旅客鉄道"),
   ("tokyo electron", "8035.T", "東京エレクトロン"),
   ("uniqlo", "9983.T", "ファーストリテイリング"),
   ("msad", "8725.T", "MS&AD保険グループHD"),
   ("ms&ad", "8725.T", "MS&AD保険グループHD"),
   ("ms-ad", "8725.T", "MS&AD保険グループHD"),
   ("ms ad", "8725.T", "MS&AD保険グループHD"),
   ("sompo", "8630.T", "ＳＯＭＰＯホールディングス"),
   ("tokio marine", "8766.T", "東京海上HD"),
   ("tmhd", "8766.T", "東京海上HD"),
   ("yamaha motor", "7272.T", "ヤマハ発動機"),
   ("yamaha-motor", "7272.T", "ヤマハ発動機"),
   ("yamahamotor", "7272.T", "ヤマハ発動機"),
   ("yamaha", "7272.T", "ヤマハ発動機")]

/-- Master-list candidates (src/app.py:907-908): rows of the locally cached
JPX master whose normalized name contains the normalized query or whose
lowercased symbol contains it.  The cache content (file I/O in
`load_symbol_master`) is the `master` parameter. -/
def mstCands (master : List (String × String)) (qn : String) : List (String × String) :=
  master.filter (fun p => strIn qn (normJa p.2) || strIn qn (pyLowerStr p.1))

/-- Curated-catalog candidates (src/app.py:910): same predicate over
`OFFLINE_SYMBOLS`. -/
def offCands (qn : String) : List (String × String) :=
  OFFLINE_SYMBOLS.filter (fun p => strIn qn (normJa p.2) || strIn qn (pyLowerStr p.1))

/-- Alias-table candidates (src/app.py:941-945): aliases whose cleaned key
contains the cleaned query, when the cleaned query is nonempty. -/
def romCands (rterm : String) : List (String × String) :=
  romajiAlias.filterMap (fun t =>
    if rterm ≠ "" ∧ strIn rterm (cleanAscii t.1) then some (t.2.1, t.2.2) else none)

/-- History candidates (src/app.py:947-955): the sorted set of nonempty
symbols already used in the ledger, matched like the catalogs, with names
looked up in the curated catalog (all its symbols are distinct, so the
first-match lookup equals Python's dict). -/
def histCands (trades : List Entry) (qn : String) : List (String × String) :=
  let usedSyms := trades.map (fun x => x.symbol)
  if usedSyms = [] then []
  else
    (sortedUnique (usedSyms.filter (fun s => pyStrip s ≠ ""))).filterMap (fun s =>
      let nm := (OFFLINE_SYMBOLS.lookup s).getD ""
      if strIn qn (normJa nm) || strIn qn (pyLowerStr s) then some (s, nm) else none)

/-- The label rendered for a candidate (src/app.py:980):
`f"{nm} ({sym})" if nm else sym`. -/
def labelOf (p : String × String) : String :=
  if p.2 ≠ "" then p.2 ++ " (" ++ p.1 ++ ")" else p.1

/-- The merge loop of `_search_candidates` (src/app.py:975-986) over the
concatenation of the per-source candidate lists.  (The source iterates the
five lists in a nested `for src in (mst, off, rom, net, hist)` with a double
`break` once 20 labels are collected; since `seen` and the running count
persist across sources, that is one pass over the concatenation that stops at
20.)  A candidate is appended when its symbol is nonempty and unseen; the
length check runs after each iteration. -/
def mergeCands : List (String × String) → List String → ℕ → List String
  | [], _, _ => []
  | (sym, nm) :: rest, seen, count =>
    if sym ≠ "" ∧ ¬ sym ∈ seen then
      if count + 1 ≥ 20 then [labelOf (sym, nm)]
      else labelOf (sym, nm) :: mergeCands rest (sym :: seen) (count + 1)
    else
      if count ≥ 20 then [] else mergeCands rest seen count

/-- `_search_candidates` (src/app.py:898-987): strip the query, return no
candidates when it is empty, otherwise merge the five candidate sources in
the code's priority order — cached master list, curated catalog, alias
table, remote results (`net`, the (symbol, name) pairs extracted from the
best-effort remote search after the EQUITY filter; empty when the call
fails), ledger history. -/
def searchCandidates (master net : List (String × String)) (trades : List Entry)
    (term : String) : List String :=
  let t := pyStrip term
  if t = "" then []
  else
    mergeCands
      (mstCands master (normJa t) ++ offCands (normJa t)
        ++ romCands (cleanAscii t) ++ net ++ histCands trades (normJa t)) [] 0

/-- Removal of duplicate symbols keeping the first occurrence (and dropping
empty symbols), as the claim words the deduplication step. -/
def dedupFirst : List (String × String) → List String → List (String × String)
  | [], _ => []
  | (sym, nm) :: rest, seen =>
    if sym ≠ "" ∧ ¬ sym ∈ seen then (sym, nm) :: dedupFirst rest (sym :: seen)
    else dedupFirst rest seen

/-- The resolve pipeline as the amended claim words it: concatenate the
per-source candidate lists in priority order — locally cached master list
FIRST, then the curated catalog, then the alias table, then the remote
results, then the ledger history — deduplicate by symbol keeping the first
(highest-priority) occurrence, cap at 20, and render labels. -/
def resolveSpec (master net : List (String × String)) (trades : List Entry)
    (term : String) : List String :=
  let t := pyStrip term
  if t = "" then []
  else
    ((dedupFirst
      (mstCands master (normJa t) ++ offCands (normJa t)
        ++ romCands (cleanAscii t) ++ net ++ histCands trades (normJa t)) []).map
          labelOf).take 20

theorem mergeCands_eq :
    ∀ (l : List (String × String)) (seen : List String) (count : ℕ), count < 20 →
      mergeCands l seen count = ((dedupFirst l seen).map labelOf).take (20 - count) := by
  intro l
  induction l with
  | nil => intro seen count h; simp [mergeCands, dedupFirst]
  | cons p rest ih =>
    intro seen count hc
    obtain ⟨sym, nm⟩ := p
    by_cases hs : sym ≠ "" ∧ ¬ sym ∈ seen
    · by_cases h20 : count + 1 ≥ 20
      · have hc19 : count = 19 := by omega
        subst hc19
        simp [mergeCands, dedupFirst, hs, h20]
      · have h1 : count + 1 < 20 := by omega
        have h2 : 20 - count = (20 - (count + 1)) + 1 := by omega
        rw [h2]
        simp only [mergeCands, dedupFirst, if_pos hs, if_neg h20, List.map_cons,
          List.take_succ_cons]
        rw [ih (sym :: seen) (count + 1) h1]
    · have h20 : ¬ count ≥ 20 := by omega
      simp only [mergeCands, dedupFirst, if_neg hs, if_neg h20]
      exact ih seen count hc

/-- C6 fails on the code: with a cached master list containing a matching
entry, the master-sourced candidate is ranked ABOVE the curated-catalog one
(the source merges `(mst, off, ...)`, master first), contradicting the
claimed order (curated catalog first, then master list). -/
theorem claim_C6_counterexample :
    (searchCandidates [("9999.T", "トヨタテスト")] [] [] "トヨタ").head?
        ≠ some "トヨタ自動車 (7203.T)"
    ∧ searchCandidates [("9999.T", "トヨタテスト")] [] [] "トヨタ"
        = ["トヨタテスト (9999.T)", "トヨタ自動車 (7203.T)"] := by
  constructor
  · decide
  · decide

/-- C6 amended: resolve merges the candidate sources in the fixed priority
order cached master list, curated catalog, transliteration alias table,
best-effort remote results, ledger history (master and catalog are swapped
with respect to the claim); duplicates are removed by symbol keeping the
first (highest-priority-source) occurrence, empty symbols are dropped, and
the merged result is capped at 20 entries. -/
theorem claim_C6_amended (master net : List (String × String)) (trades : List Entry)
    (term : String) :
    searchCandidates master net trades term = resolveSpec master net trades term
    ∧ (searchCandidates master net trades term).length ≤ 20 := by
  have hmain : searchCandidates master net trades term
      = resolveSpec master net trades term := by
    unfold searchCandidates resolveSpec
    by_cases ht : pyStrip term = ""
    · rw [if_pos ht, if_pos ht]
    · rw [if_neg ht, if_neg ht]
      rw [mergeCands_eq _ [] 0 (by omega)]
  refine ⟨hmain, ?_⟩
  rw [hmain]
  unfold resolveSpec
  by_cases ht : pyStrip term = ""
  · rw [if_pos ht]
    simp
  · rw [if_neg ht]
    exact le_trans (List.length_take_le _ _) (by omega)
